import Mathlib

/-!
# A verification development for `codediff.py` (coderev)

This file gives a shallow embedding, in Lean 4, of the comparison-and-report
pipeline of `codediff.py`: HTML escaping, title truncation, binary sniffing,
context-diff rendering and its change-count summary, patch-style path
stripping, the `Pager` accumulator, per-entry classification in directory
mode, the aggregation of rows and global summary counters, the filesystem
effects of a directory run, and the top-level `make_diff` dispatch.

Strings from the Python source are modelled as `List Char`; Python `None`
results (from exception-catching helpers) are modelled with `Option`;
filesystem state is modelled as a partial map from paths to nodes, with
symbolic links resolved explicitly (bounded by fuel, as the OS bounds
symlink chains).  Every definition is translated from the source file;
definitions whose doc comment starts with `Modelled from the spec:` follow
the specification's words instead and exist only for comparison.
-/

namespace Coderev

/-- Lines, paths and rendered fragments are modelled as lists of characters. -/
abbrev Chars := List Char

/-- One character of `html_filter`: the three sequential `str.replace` calls
in the source (`&`→`&amp;`, then `>`→`&gt;`, then `<`→`&lt;`) act
independently per original character, because the replacement texts introduce
no character that a later replace rewrites. -/
def htmlFilterChar (c : Char) : Chars :=
  if c = '&' then ['&', 'a', 'm', 'p', ';']
  else if c = '>' then ['&', 'g', 't', ';']
  else if c = '<' then ['&', 'l', 't', ';']
  else [c]

/-- `html_filter(s)`: HTML-escape `&`, `>`, `<`. -/
def html_filter (s : Chars) : Chars :=
  s.flatMap htmlFilterChar

/-- `make_title(pathname, width)`.  The Python `width` may be an `int` or
`None`; `None` satisfies `not width` exactly as `0` does, so it is modelled
by `0 : Int`.  Python negative slices `pathname[-k:]` (take the last `k`
characters, the whole string when `k > len`) are `List.drop (length - k)`. -/
def make_title (pathname : Chars) (width : Int) : Chars :=
  if pathname = [] then "None".toList
  else if width ≤ 0 then pathname
  else if (pathname.length : Int) > width then
    if width > 3 then "...".toList ++ pathname.drop (pathname.length - (width - 3).toNat)
    else pathname.drop (pathname.length - width.toNat)
  else pathname

/-- Python's `needle in hay` substring test on strings. -/
def substrIn (needle : Chars) : Chars → Bool
  | [] => needle.isEmpty
  | c :: t => needle.isPrefixOf (c :: t) || substrIn needle t

/-- `is_binary_file(file)`: `'text' not in magic.from_file(file, mime=True)`.
The `magic` call is the external sniffing capability; its result is the
`mime` argument, `none` when the file vanished and `magic` raised
`FileNotFoundError` (which the source catches and turns into `None`). -/
def is_binary_file (mime : Option Chars) : Option Bool :=
  mime.map (fun m => ! substrIn "text".toList m)

/-- `is_text_file(file)`: `'text' in magic.from_file(file, mime=True)`,
`None` on `FileNotFoundError`, like `is_binary_file`. -/
def is_text_file (mime : Option Chars) : Option Bool :=
  mime.map (fun m => substrIn "text".toList m)

/-- The `{'changed': …, 'deleted': …, 'added': …}` dictionaries of the
source (both the per-file cdiff summary and the global run summary). -/
structure DiffSummary where
  changed : Nat
  deleted : Nat
  added : Nat
deriving DecidableEq, Repr

/-- `line_pattern % (cls, line)` with `line_pattern = '<span class="%s">%s</span>'`. -/
def linePattern (cls line : Chars) : Chars :=
  "<span class=\"".toList ++ cls ++ "\">".toList ++ line ++ "</span>".toList

/-- One iteration of the `for line in cdiff` loop of `cdiff_to_html`.
State: the summary dictionary, the `old_group` flag, and the accumulated
`body`.  As in the source, `n` is the length of the line *before*
`html_filter` is applied, while the prefix tests inspect the filtered line. -/
def cdiffStep (st : DiffSummary × Bool × Chars) (line : Chars) : DiffSummary × Bool × Chars :=
  let (sum, oldGroup, body) := st
  let n := line.length
  let fl := html_filter line
  if n ≥ 4 ∧ fl.take 4 = "*** ".toList then
    (sum, true, body ++ linePattern "fromtitle".toList fl)
  else if n ≥ 4 ∧ fl.take 4 = "--- ".toList then
    (sum, false, body ++ linePattern "totitle".toList fl)
  else if n ≥ 2 ∧ fl.take 2 = "  ".toList then
    (sum, oldGroup, body ++ linePattern "same".toList fl)
  else if n ≥ 2 ∧ fl.take 2 = "! ".toList then
    (if oldGroup then { sum with changed := sum.changed + 1 } else sum,
     oldGroup, body ++ linePattern "change".toList fl)
  else if n ≥ 2 ∧ fl.take 2 = "- ".toList then
    ({ sum with deleted := sum.deleted + 1 }, oldGroup, body ++ linePattern "delete".toList fl)
  else if n ≥ 2 ∧ fl.take 2 = "+ ".toList then
    ({ sum with added := sum.added + 1 }, oldGroup, body ++ linePattern "insert".toList fl)
  else if n ≥ 15 ∧ fl.take 15 = List.replicate 15 '*' then
    (sum, oldGroup, body ++ "<hr>".toList)
  else
    (sum, oldGroup, body ++ fl)

/-- `cdiff_to_html(cdiff, title)`: the summary dictionary and the `body`
accumulated by the loop.  The enclosing static page template (title and
style constants wrapped around `body`) carries no logic and is not modelled. -/
def cdiff_to_html (cdiff : List Chars) : DiffSummary × Chars :=
  let (sum, _, body) := cdiff.foldl cdiffStep (⟨0, 0, 0⟩, false, [])
  (sum, body)

/-- Left-to-right scan behind `findFrom`: the remaining characters paired
with the absolute index of the first of them. -/
def findFromGo (c : Char) : List Char → Nat → Option Nat
  | [], _ => none
  | a :: t, i => if a = c then some i else findFromGo c t (i + 1)

/-- `name.find('/', cur)`: index of the first `'/'` at position `≥ start`,
`None` (Python `-1`) when there is none. -/
def findFrom (name : Chars) (c : Char) (start : Nat) : Option Nat :=
  findFromGo c (name.drop start) start

/-- The inner loop of `strip_prefix`:
`while index <= tail and name[index] == '/': index += 1`.
The first argument is the loop's termination measure `tail + 1 - index`,
decreasing by one per iteration; the loop guard is checked unchanged. -/
def skipSlashesGo (name : Chars) (tailIdx : Nat) : Nat → Nat → Nat
  | 0, index => index
  | fuel + 1, index =>
    if index ≤ tailIdx ∧ name.getD index ' ' = '/' then
      skipSlashesGo name tailIdx fuel (index + 1)
    else index

/-- Entry point of the inner slash-skipping loop of `strip_prefix`. -/
def skipSlashes (name : Chars) (tailIdx index : Nat) : Nat :=
  skipSlashesGo name tailIdx (tailIdx + 1 - index) index

/-- The outer `while p > 0` loop of `strip_prefix`, returning the final
`cur`; recursion is on `p`, which the loop decrements. -/
def stripLoop (name : Chars) (tailIdx : Nat) : Nat → Nat → Nat
  | cur, 0 => cur
  | cur, p + 1 =>
    match findFrom name '/' cur with
    | none => cur
    | some index => stripLoop name tailIdx (skipSlashes name tailIdx index) p

/-- `strip_prefix(name, p)`: strip `p` leading path components, like
`patch(1) -pNUM`.  `tail = len(name) - 1` is only consulted after a
successful `find`, where the string is nonempty, so `Nat` truncation at `0`
is unreachable. -/
def strip_prefix (name : Chars) (p : Nat) : Chars :=
  name.drop (stripLoop name (name.length - 1) 0 p)

/-- The `Pager` accumulator: `numitem` is the configured maximum, `pages`
the list of page bodies (each a concatenation of row fragments), `count`
the running fragment count of the current page. -/
structure Pager where
  numitem : Nat
  pages : List Chars
  count : Nat
deriving DecidableEq, Repr

/-- `Pager.__init__`: `self.pages = ['']; self._count = 0`. -/
def Pager.init (numitem : Nat) : Pager :=
  ⟨numitem, [[]], 0⟩

/-- `Pager.add(item)`.  A falsy item (`not item`, i.e. the empty string, to
which the redundant `item == ''` test adds nothing) returns immediately.
Otherwise the count is incremented; when it reaches `numitem` it resets and
an empty page is appended; then `s = self.pages.pop() + item;
self.pages.append(s)` extends the last page by the item. -/
def Pager.add (p : Pager) (item : Chars) : Pager :=
  if item = [] then p
  else
    let c := p.count + 1
    let (c', pg) := if c ≥ p.numitem then (0, p.pages ++ [[]]) else (c, p.pages)
    ⟨p.numitem, pg.dropLast ++ [pg.getLastD [] ++ item], c'⟩

/-- Feeding a list of fragments to a `Pager` in order. -/
def Pager.addAll (p : Pager) (items : List Chars) : Pager :=
  items.foldl Pager.add p

/-! ## Filesystem model

A filesystem maps a path to a node; a node is a directory, a regular file,
something else (`special`: device, socket, fifo, …), or a symbolic link to
a target path. -/

/-- A filesystem node as distinguished by `stat`/`lstat` mode bits. -/
inductive Node
  | regular
  | directory
  | special
  | symlink (target : Chars)
deriving DecidableEq, Repr

/-- A filesystem: a partial map from paths to nodes. -/
def FS := Chars → Option Node

/-- `stat.S_ISDIR` of a node's own mode (as `lstat` reports it). -/
def nodeIsDir : Node → Bool
  | .directory => true
  | _ => false

/-- `stat.S_ISREG` of a node's own mode (as `lstat` reports it): a symbolic
link is neither a directory nor a regular file under `lstat`. -/
def nodeIsReg : Node → Bool
  | .regular => true
  | _ => false

/-- Resolve symbolic links, as `os.stat` and `os.path.exists` do; `fuel`
bounds the chain length (the OS rejects over-long chains with `ELOOP`,
which `os.path.exists` reports as non-existence and `os.stat` raises). -/
def resolveNode (fs : FS) : Nat → Chars → Option Node
  | 0, _ => none
  | fuel + 1, p =>
    match fs p with
    | some (Node.symlink t) => resolveNode fs fuel t
    | other => other

/-- `os.path.exists(p)`: follows symbolic links. -/
def pathExists (fs : FS) (p : Chars) : Bool :=
  (resolveNode fs 40 p).isSome

/-- One side's `(S_ISDIR, S_ISREG)` pair, as `__diff_dir_by_list` computes
it per entry: presence via `os.path.exists` (which follows links), mode via
`os.lstat` (which does not). -/
structure SideStat where
  isDir : Bool
  isReg : Bool
deriving DecidableEq, Repr

/-- Lines 608–617 of the source: `stat1 = None; if os.path.exists(obj1):
stat1 = os.lstat(obj1); file1_is_dir = S_ISDIR(...); file1_is_regular =
S_ISREG(...)`. -/
def sideStat (fs : FS) (p : Chars) : Option SideStat :=
  if pathExists fs p then
    match fs p with
    | some n => some ⟨nodeIsDir n, nodeIsReg n⟩
    | none => none
  else none

/-! ## Per-entry classification in directory mode -/

/-- The configuration switches consulted by the per-entry classification. -/
structure Config where
  includeBinary : Bool
  showCommon : Bool
deriving DecidableEq, Repr

/-- Everything `__diff_dir_by_list` inspects about one relative path:
the two `(exists, S_ISDIR, S_ISREG)` side records, the four sniffing
results, the `filecmp.cmp` verdict, and the cdiff change counts the diff
pass would produce for a candidate pair. -/
structure EntryEnv where
  stat1 : Option SideStat
  stat2 : Option SideStat
  bin1 : Option Bool
  bin2 : Option Bool
  text1 : Option Bool
  text2 : Option Bool
  sameBytes : Bool
  cdiffSum : DiffSummary
deriving DecidableEq, Repr

/-- Building an `EntryEnv` from the filesystem model and the `magic`
results for the two sides (the `magic` library being the supplied external
sniffing capability; `none` models its `FileNotFoundError`). -/
def envFromFs (fs : FS) (mime1 mime2 : Option Chars) (sameBytes : Bool)
    (cdiffSum : DiffSummary) (p1 p2 : Chars) : EntryEnv :=
  { stat1 := sideStat fs p1
    stat2 := sideStat fs p2
    bin1 := is_binary_file mime1
    bin2 := is_binary_file mime2
    text1 := is_text_file mime1
    text2 := is_text_file mime2
    sameBytes := sameBytes
    cdiffSum := cdiffSum }

/-- Python truthiness of a `True`/`False`/`None` value, as used by
`if file1_is_binary and not self.__include_binary_files:` — `None` is falsy. -/
def truthy (o : Option Bool) : Bool :=
  o.getD false

/-- Why an entry produced no row (the `(skipped …)`/`Not found` prints). -/
inductive SkipReason
  | dir
  | special
  | binary
  | identical
  | notFound
deriving DecidableEq, Repr

/-- What one loop iteration of `__diff_dir_by_list` decides for an entry. -/
inductive EntryOutcome
  | skipped (r : SkipReason)
  | deletedRow
  | addedRow
  | changedRow (s : DiffSummary)
deriving DecidableEq, Repr

/-- Whether the outcome is one of the skip paths. -/
def EntryOutcome.isSkipped : EntryOutcome → Bool
  | .skipped _ => true
  | _ => false

/-- The branch structure of one iteration of the `for f in self.__file_list`
loop (lines 619–729), in source order: the deleted / added / both-present /
not-found cases and their skip tests. -/
def processEntry (cfg : Config) (e : EntryEnv) : EntryOutcome :=
  match e.stat1, e.stat2 with
  | some s1, none =>
    if s1.isDir then .skipped .dir
    else if ¬ s1.isReg then .skipped .special
    else if truthy e.bin1 ∧ ¬ cfg.includeBinary then .skipped .binary
    else .deletedRow
  | none, some s2 =>
    if s2.isDir then .skipped .dir
    else if ¬ s2.isReg then .skipped .special
    else if truthy e.bin2 ∧ ¬ cfg.includeBinary then .skipped .binary
    else .addedRow
  | some s1, some s2 =>
    if (truthy e.bin1 ∨ truthy e.bin2) ∧ ¬ cfg.includeBinary then .skipped .binary
    else if s1.isDir ∨ s2.isDir then .skipped .dir
    else if ¬ s1.isReg ∨ ¬ s2.isReg then .skipped .special
    else if ¬ cfg.showCommon ∧ e.sameBytes then .skipped .identical
    else .changedRow e.cdiffSum
  | none, none => .skipped .notFound

/-! ## Row rendering and URL quoting -/

/-- Upper-case hexadecimal digit, as `urllib.parse.quote` emits. -/
def hexUpper (n : Nat) : Char :=
  if n < 10 then Char.ofNat ('0'.toNat + n) else Char.ofNat ('A'.toNat + n - 10)

/-- UTF-8 bytes of one character (`urllib.parse.quote` encodes per byte). -/
def utf8Bytes (c : Char) : List Nat :=
  let n := c.toNat
  if n < 128 then [n]
  else if n < 2048 then [192 + n / 64, 128 + n % 64]
  else if n < 65536 then [224 + n / 4096, 128 + n / 64 % 64, 128 + n % 64]
  else [240 + n / 262144, 128 + n / 4096 % 64, 128 + n / 64 % 64, 128 + n % 64]

/-- One character of `urllib.parse.quote(s)` with the default `safe='/'`:
ASCII letters, digits, `_.-~` and `/` pass through, everything else is
percent-encoded bytewise. -/
def quoteChar (c : Char) : Chars :=
  if c.isAlpha ∨ c.isDigit ∨ c ∈ ['_', '.', '-', '~', '/'] then [c]
  else (utf8Bytes c).flatMap (fun b => ['%', hexUpper (b / 16), hexUpper (b % 16)])

/-- `urllib.parse.quote(f)` as applied to each relative path. -/
def quote (s : Chars) : Chars :=
  s.flatMap quoteChar

/-- `str` of a number, for the `%(changed)s`-style substitutions. -/
def natChars (n : Nat) : Chars :=
  (Nat.repr n).toList

/-- `_same_data_row_template % {...}` rendered: the row of a both-sides
entry whose three cdiff counts are all zero. -/
def same_data_row (pathname pathname_url : Chars) : Chars :=
  "\n    <tr class=\"same\">\n        <td>".toList ++ pathname ++
  "</td>\n        <td>-/-/-</td>\n        <td>-</td>\n        <td>-</td>\n        <td>-</td>\n        <td>-</td>\n        <td><a href=\"".toList ++
  pathname_url ++ "-.html\" title=\"old file\">Old</a></td>\n        <td><a href=\"".toList ++
  pathname_url ++ ".html\" title=\"new file\">New</a></td>\n    </tr>".toList

/-- `_diff_data_row_template % {...}` rendered (the backslash–newline pairs
of the Python literal are line continuations: the newline disappears and
the following indentation stays). -/
def diff_data_row (pathname pathname_url : Chars) (changed deleted added : Nat) : Chars :=
  "\n    <tr class=\"diff\">\n        <td>".toList ++ pathname ++
  "</td>\n        <td><abbr title=\"Changed/Deleted/Added\">                ".toList ++
  natChars changed ++ "/".toList ++ natChars deleted ++ "/".toList ++ natChars added ++
  "</abbr></td>\n        <td><a href=\"".toList ++ pathname_url ++
  ".cdiff.html\" title=\"context diff\">Cdiff</a>                </td>\n        <td><a href=\"".toList ++
  pathname_url ++
  ".udiff.html\" title=\"unified diff\">Udiff</a>                </td>\n        <td><a href=\"".toList ++
  pathname_url ++
  ".sdiff.html\" title=\"side-by-side context diff\">                Sdiff</a></td>\n        <td><a href=\"".toList ++
  pathname_url ++
  ".fdiff.html\" title=\"side-by-side full diff\">                Fdiff</a></td>\n        <td><a href=\"".toList ++
  pathname_url ++ "-.html\" title=\"old file\">Old</a></td>\n        <td><a href=\"".toList ++
  pathname_url ++ ".html\" title=\"new file\">New</a></td>\n    </tr>".toList

/-- `_deleted_data_row_template % {...}` rendered. -/
def deleted_data_row (pathname pathname_url : Chars) : Chars :=
  "\n    <tr class=\"deleted\">\n        <td>".toList ++ pathname ++
  "</td>\n        <td>-/-/-</td>\n        <td>-</td>\n        <td>-</td>\n        <td>-</td>\n        <td>-</td>\n        <td><a href=\"".toList ++
  pathname_url ++
  "-.html\" title=\"old file\">Old</a></td>\n        <td>-</td>\n    </tr>".toList

/-- `_added_data_row_template % {...}` rendered. -/
def added_data_row (pathname pathname_url : Chars) : Chars :=
  "\n    <tr class=\"added\">\n        <td>".toList ++ pathname ++
  "</td>\n        <td>-/-/-</td>\n        <td>-</td>\n        <td>-</td>\n        <td>-</td>\n        <td>-</td>\n        <td>-</td>\n        <td><a href=\"".toList ++
  pathname_url ++ ".html\" title=\"new file\">New</a></td>\n    </tr>".toList

/-- The `data_row` string handed to `self.__pager.add` for one entry:
`none` when the iteration `continue`s before reaching the add (the skip
paths), `some ''` for the not-found path (which assigns `data_row = ''`),
and the rendered template otherwise.  The template choice for a both-sides
candidate follows lines 712–724: the `same` row exactly when all three
cdiff counts are zero. -/
def entryRow (f f_url : Chars) : EntryOutcome → Option Chars
  | .skipped .notFound => some []
  | .skipped _ => none
  | .deletedRow => some (deleted_data_row f f_url)
  | .addedRow => some (added_data_row f f_url)
  | .changedRow s =>
    some (if s.changed = 0 ∧ s.deleted = 0 ∧ s.added = 0
          then same_data_row f f_url
          else diff_data_row f f_url s.changed s.deleted s.added)

/-- The global summary increment of one entry: `summary['deleted'] += 1`,
`summary['added'] += 1`, or `summary['changed'] += 1` (line 725, executed
for both the `same` and the `diff` template). -/
def addOutcome (sum : DiffSummary) : EntryOutcome → DiffSummary
  | .skipped _ => sum
  | .deletedRow => { sum with deleted := sum.deleted + 1 }
  | .addedRow => { sum with added := sum.added + 1 }
  | .changedRow _ => { sum with changed := sum.changed + 1 }

/-! ## Filesystem effects of a directory run -/

/-- `s.rstrip('/')`. -/
def dropTrailSlash (s : Chars) : Chars :=
  (s.reverse.dropWhile (· = '/')).reverse

/-- `os.path.dirname(p)` (posix): everything up to the last `'/'`, with
trailing slashes stripped unless the head is all slashes. -/
def dirname (p : Chars) : Chars :=
  let i := match p.reverse.findIdx? (· = '/') with
    | some j => p.length - j
    | none => 0
  let head := p.take i
  if head ≠ [] ∧ head.any (· ≠ '/') then dropTrailSlash head else head

/-- `os.path.join(a, b)` (posix, two components). -/
def pjoin (a b : Chars) : Chars :=
  if b.head? = some '/' then b
  else if a = [] ∨ a.getLast? = some '/' then a ++ b
  else a ++ '/' :: b

/-- An observable filesystem write of the run: `os.makedirs` of an output
directory, a per-file artifact write, or an index page write (the index
page named `index%04d.html`, or `index.html` when it is the only page). -/
inductive Effect
  | mkdirs (p : Chars)
  | writeFile (p : Chars)
  | writeIndex (ix : Nat)
deriving DecidableEq, Repr

/-- The writes of one loop iteration for entry `f`: the unconditional
`os.makedirs(os.path.join(output, os.path.dirname(f)))` (lines 592–596,
before any classification), then the artifacts of the chosen branch in
source order (for a candidate: cdiff, udiff, sdiff, fdiff, then the two
source views for whichever sides are text). -/
def entryEffects (cfg : Config) (out f : Chars) (e : EntryEnv) : List Effect :=
  let target := pjoin out f
  Effect.mkdirs (pjoin out (dirname f)) ::
  match processEntry cfg e with
  | .skipped _ => []
  | .deletedRow =>
    if truthy e.text1 then [.writeFile (target ++ "-.html".toList)] else []
  | .addedRow =>
    if truthy e.text2 then [.writeFile (target ++ ".html".toList)] else []
  | .changedRow _ =>
    [.writeFile (target ++ ".cdiff.html".toList),
     .writeFile (target ++ ".udiff.html".toList),
     .writeFile (target ++ ".sdiff.html".toList),
     .writeFile (target ++ ".fdiff.html".toList)] ++
    (if truthy e.text1 then [.writeFile (target ++ "-.html".toList)] else []) ++
    (if truthy e.text2 then [.writeFile (target ++ ".html".toList)] else [])

/-- The mutable state threaded through the `for f in self.__file_list`
loop: the global summary, the `has_diff` flag, the pager, and the writes
performed so far. -/
structure RunState where
  summary : DiffSummary
  hasDiff : Bool
  pager : Pager
  effects : List Effect
deriving DecidableEq, Repr

/-- One iteration of the loop over the (sorted) file list: classify, write
the branch's artifacts, set `has_diff` for the three row branches, and hand
`data_row` to the pager when the iteration reaches line 730. -/
def stepEntry (cfg : Config) (out : Chars) (st : RunState) (fe : Chars × EntryEnv) : RunState :=
  let (f, e) := fe
  let o := processEntry cfg e
  { summary := addOutcome st.summary o
    hasDiff := st.hasDiff || ! o.isSkipped
    pager := match entryRow f (quote f) o with
      | some r => st.pager.add r
      | none => st.pager
    effects := st.effects ++ entryEffects cfg out f e }

/-- `__diff_dir_by_list`, run over an already-sorted file list with each
path's observations attached: the loop, then — only when `has_diff` —
one index page write per pager page (lines 732–776; the footer, title and
navigation strings written into the pages carry no further logic). -/
def diff_dir_by_list (cfg : Config) (out : Chars) (pagerSize : Nat)
    (entries : List (Chars × EntryEnv)) : RunState :=
  let st := entries.foldl (stepEntry cfg out)
    ⟨⟨0, 0, 0⟩, false, Pager.init pagerSize, []⟩
  if st.hasDiff then
    { st with effects := st.effects ++ (List.range st.pager.pages.length).map Effect.writeIndex }
  else st

/-! ## Top-level dispatch -/

/-- The two successful outcomes of `make_diff`. -/
inductive TopAction
  | diffFile
  | diffDir
deriving DecidableEq, Repr

/-- The message of the type-mismatch `CodeDifferError` raised by
`make_diff`. -/
def differentTypeMsg (o1 o2 : Chars) : Chars :=
  o1 ++ " and ".toList ++ o2 ++ " are of different type, aborted".toList

/-- `make_diff` (lines 782–795): `os.stat` both inputs — following
symbolic links, as the source comment notes — then dispatch on the mode
bits, raising `CodeDifferError` on a type mismatch; an `OSError` from a
failing `stat` is caught and re-raised as a `CodeDifferError` whose text
names the offending path (evaluation order: `obj1` is stat'ed first). -/
def make_diff (fs : FS) (o1 o2 : Chars) : Except Chars TopAction :=
  match resolveNode fs 40 o1, resolveNode fs 40 o2 with
  | some n1, some n2 =>
    if nodeIsReg n1 ∧ nodeIsReg n2 then .ok .diffFile
    else if nodeIsDir n1 ∧ nodeIsDir n2 then .ok .diffDir
    else .error (differentTypeMsg o1 o2)
  | none, _ => .error ("OSError: stat ".toList ++ o1)
  | some _, none => .error ("OSError: stat ".toList ++ o2)

/-- `make_diff` together with the writes it performs: the sub-pipeline
writes (supplied by the caller, since they depend on the whole run) happen
only in the two `ok` branches; an error escapes before any write. -/
def make_diff_run (fs : FS) (o1 o2 : Chars) (fileEffects dirEffects : List Effect) :
    List Effect × Option Chars :=
  match make_diff fs o1 o2 with
  | .ok .diffFile => (fileEffects, none)
  | .ok .diffDir => (dirEffects, none)
  | .error m => ([], some m)

/-! ## Outcome predicates and line-count specifications -/

/-- Whether the outcome is the both-sides candidate branch. -/
def EntryOutcome.isChangedRow : EntryOutcome → Bool
  | .changedRow _ => true
  | _ => false

/-- Whether the outcome is the deleted-file branch. -/
def EntryOutcome.isDeletedRow : EntryOutcome → Bool
  | .deletedRow => true
  | _ => false

/-- Whether the outcome is the added-file branch. -/
def EntryOutcome.isAddedRow : EntryOutcome → Bool
  | .addedRow => true
  | _ => false

/-- How one raw cdiff line moves the `old_group` flag: a `*** ` header
opens the old half of a hunk, a `--- ` header opens the new half. -/
def ogStep (og : Bool) (l : Chars) : Bool :=
  if l.take 4 = "*** ".toList then true
  else if l.take 4 = "--- ".toList then false
  else og

/-- Number of `! ` (changed) lines lying in the *old* halves of the hunks
of a context diff — the halves introduced by `*** ` headers. -/
def changedOldCount : Bool → List Chars → Nat
  | _, [] => 0
  | og, l :: ls =>
    (if l.take 2 = "! ".toList ∧ og = true then 1 else 0) + changedOldCount (ogStep og l) ls

/-- Modelled from the spec: "one increment to `changed` per changed line in
the 'new' half of a replace hunk" — the number of `! ` lines lying in the
*new* halves, the halves introduced by `--- ` headers.  Kept only to compare
against what `cdiff_to_html` computes. -/
def changedNewCount : Bool → List Chars → Nat
  | _, [] => 0
  | og, l :: ls =>
    (if l.take 2 = "! ".toList ∧ og = false then 1 else 0) + changedNewCount (ogStep og l) ls

/-- Number of pure-delete (`- `) lines of a context diff. -/
def deletedLineCount (ls : List Chars) : Nat :=
  ls.countP (fun l => decide (l.take 2 = "- ".toList))

/-- Number of pure-insert (`+ `) lines of a context diff. -/
def addedLineCount (ls : List Chars) : Nat :=
  ls.countP (fun l => decide (l.take 2 = "+ ".toList))

/-! ## Concrete inputs used by counterexamples and witnesses -/

/-- A context diff with a replace hunk whose old half holds one `! ` line
and whose new half holds two. -/
def exCdiff : List Chars :=
  ["*** 1,1 ****".toList, "! a".toList, "--- 1,2 ----".toList, "! b".toList, "! c".toList]

/-- The default configuration: binary files excluded, common files hidden. -/
def cfgOff : Config :=
  ⟨false, false⟩

/-- A filesystem where `old/f` is a symbolic link to the regular file
`tgt`, and `new/f` is a regular file. -/
def fsLink : FS := fun p =>
  if p = "old/f".toList then some (Node.symlink "tgt".toList)
  else if p = "tgt".toList then some Node.regular
  else if p = "new/f".toList then some Node.regular
  else none

/-- A filesystem where `a` is a regular file and `b` a directory. -/
def fsMix : FS := fun p =>
  if p = "a".toList then some Node.regular
  else if p = "b".toList then some Node.directory
  else none

/-- An entry whose first side exists as a regular file but whose sniffing
came back indeterminate (the file vanished between `os.path.exists` during
enumeration and the `magic` call), and whose second side is absent. -/
def envVanished : EntryEnv :=
  { stat1 := some ⟨false, true⟩
    stat2 := none
    bin1 := is_binary_file none
    bin2 := is_binary_file none
    text1 := is_text_file none
    text2 := is_text_file none
    sameBytes := false
    cdiffSum := ⟨0, 0, 0⟩ }

/-- A both-sides text entry that differs in bytes but whose textual diff
yields zero changed/deleted/added lines — the Unchanged classification. -/
def envUnchanged : EntryEnv :=
  { stat1 := some ⟨false, true⟩
    stat2 := some ⟨false, true⟩
    bin1 := some false
    bin2 := some false
    text1 := some true
    text2 := some true
    sameBytes := false
    cdiffSum := ⟨0, 0, 0⟩ }

/-- A stale list-mode entry: the path exists on neither side. -/
def envNotFound : EntryEnv :=
  { stat1 := none
    stat2 := none
    bin1 := none
    bin2 := none
    text1 := none
    text2 := none
    sameBytes := false
    cdiffSum := ⟨0, 0, 0⟩ }

/-- The entry record the run builds for the symbolic-link path of
`fsLink`, with both sides sniffed as text. -/
def envLink : EntryEnv :=
  envFromFs fsLink (some "text/x-c".toList) (some "text/x-c".toList) false ⟨1, 0, 0⟩
    "old/f".toList "new/f".toList

/-- A 50-character pathname. -/
def p50 : Chars :=
  List.replicate 50 'p'

/-- The sequence of `data_row` strings handed to `self.__pager.add` over a
run: skip paths `continue` past the add and contribute nothing; the
not-found path hands the empty string. -/
def rowsOf (cfg : Config) (entries : List (Chars × EntryEnv)) : List Chars :=
  entries.filterMap (fun fe => entryRow fe.1 (quote fe.1) (processEntry cfg fe.2))

/-- The per-entry outcomes of a run, in order. -/
def outcomesOf (cfg : Config) (entries : List (Chars × EntryEnv)) : List EntryOutcome :=
  entries.map (fun fe => processEntry cfg fe.2)

/-! ## Theorems -/

/-- Claim C10 — implicit Pager invariants, confirmed: the pages list is
nonempty after construction and preserved by every `add`; a falsy item
(the empty string — `not item` and `item == ''` coincide for strings)
leaves the pager completely unchanged; and the not-found row is exactly
such an empty item, which is why a not-found entry contributes no row. -/
theorem c10_pager_invariants :
    (∀ M, (Pager.init M).pages ≠ [])
    ∧ (∀ (p : Pager) (item : Chars), p.pages ≠ [] → (p.add item).pages ≠ [])
    ∧ (∀ p : Pager, p.add [] = p)
    ∧ (∀ f u : Chars, entryRow f u (EntryOutcome.skipped SkipReason.notFound) = some []) := by
  refine ⟨fun M => by simp [Pager.init], fun p item h => ?_, fun p => by simp [Pager.add], fun f u => rfl⟩
  by_cases hi : item = []
  · simpa [Pager.add, hi] using h
  · simp only [Pager.add, if_neg hi]
    split <;> simp

/-- Witness for C10: the nonemptiness invariant applied to a concrete
pager and item. -/
theorem c10_witness : ((Pager.init 3).add ['a']).pages ≠ [] :=
  c10_pager_invariants.2.1 (Pager.init 3) ['a'] (by decide)

/-- Counterexample for C2: with maximum page size `M = 2` and `N = 2`
non-empty fragments the code produces two pages, not `ceil(N / M) = 1` —
`Pager.add` seals the current page *before* appending the fragment that
reached the maximum, so that fragment starts a new page. -/
theorem c2_counterexample :
    ¬ (((Pager.init 2).addAll [['a'], ['b']]).pages.length = (2 + 2 - 1) / 2) := by
  decide

/-- Counterexample for C5: an entry whose sniffing came back indeterminate
(`is_binary_file` returned `None` because the file vanished) is *not*
skipped with binary inclusion off: `None` is falsy, so
`if file1_is_binary and not include_binary` does not fire, and the
one-sided entry still emits its Deleted row and increments the global
`deleted` counter — the claim predicts a skip with no row and no
increment. -/
theorem c5_counterexample :
    envVanished.bin1 = none
    ∧ cfgOff.includeBinary = false
    ∧ processEntry cfgOff envVanished = EntryOutcome.deletedRow
    ∧ (diff_dir_by_list cfgOff "out".toList 1000 [("f.c".toList, envVanished)]).summary.deleted = 1 := by
  refine ⟨rfl, rfl, rfl, ?_⟩
  decide

/-- Claim C5, amended: an indeterminate sniffing result is treated as
*non-binary* (Python `None` is falsy), so with binary inclusion off a
vanished-while-sniffing one-sided regular entry is not skipped as binary —
it proceeds and takes the Deleted branch. -/
theorem c5_indeterminate_proceeds (cfg : Config) (e : EntryEnv) (s1 : SideStat)
    (h1 : e.stat1 = some s1) (h2 : e.stat2 = none)
    (hd : s1.isDir = false) (hr : s1.isReg = true) (hb : e.bin1 = none) :
    processEntry cfg e = EntryOutcome.deletedRow := by
  simp [processEntry, h1, h2, hd, hr, truthy, hb]

/-- Witness for C5: the amended theorem applied to the concrete vanished
entry. -/
theorem c5_witness : processEntry cfgOff envVanished = EntryOutcome.deletedRow :=
  c5_indeterminate_proceeds cfgOff envVanished ⟨false, true⟩ rfl rfl rfl rfl rfl

/-- Counterexample for C4: on `fsLink`, the path `old/f` is a symbolic
link whose target is a regular file — a stat call that follows links
reports it regular — yet directory-mode classification (which uses
`os.lstat`) records it as neither directory nor regular and skips the
entry as special, where the claim predicts a regular-file classification. -/
theorem c4_counterexample :
    resolveNode fsLink 40 "old/f".toList = some Node.regular
    ∧ sideStat fsLink "old/f".toList = some ⟨false, false⟩
    ∧ processEntry cfgOff envLink = EntryOutcome.skipped SkipReason.special := by
  decide

/-- Claim C4, amended: only the top-level `make_diff` type check follows
symbolic links; the per-entry classification of directory mode takes its
type bits from `os.lstat`, so an existing symbolic-link entry is recorded
as neither directory nor regular on that side, and a one-sided
symbolic-link entry is skipped as special no matter what it points to. -/
theorem c4_lstat_classification (fs : FS) (p t : Chars)
    (hl : fs p = some (Node.symlink t)) (hex : pathExists fs p = true) :
    sideStat fs p = some ⟨false, false⟩
    ∧ ∀ (cfg : Config) (e : EntryEnv), e.stat1 = sideStat fs p → e.stat2 = none →
        processEntry cfg e = EntryOutcome.skipped SkipReason.special := by
  have hs : sideStat fs p = some ⟨false, false⟩ := by
    simp [sideStat, hex, hl, nodeIsDir, nodeIsReg]
  refine ⟨hs, fun cfg e h1 h2 => ?_⟩
  rw [hs] at h1
  simp [processEntry, h1, h2]

/-- Witness for C4: the amended theorem applied to the concrete link
filesystem and an entry whose first side is that link. -/
theorem c4_witness :
    sideStat fsLink "old/f".toList = some ⟨false, false⟩
    ∧ processEntry cfgOff
        { envNotFound with stat1 := sideStat fsLink "old/f".toList }
        = EntryOutcome.skipped SkipReason.special := by
  have h := c4_lstat_classification fsLink "old/f".toList "tgt".toList (by decide) (by decide)
  exact ⟨h.1, h.2 cfgOff _ rfl rfl⟩

/-- Claim C8 — confirmed: when both top-level inputs stat successfully
(symbolic links followed) but are not both regular files and not both
directories, `make_diff` raises `CodeDifferError` before performing any
write, and the message names both offending inputs. -/
theorem c8_make_diff_mismatch (fs : FS) (o1 o2 : Chars) (n1 n2 : Node)
    (h1 : resolveNode fs 40 o1 = some n1) (h2 : resolveNode fs 40 o2 = some n2)
    (hreg : ¬ (nodeIsReg n1 ∧ nodeIsReg n2)) (hdir : ¬ (nodeIsDir n1 ∧ nodeIsDir n2)) :
    (∀ fileEffects dirEffects,
      make_diff_run fs o1 o2 fileEffects dirEffects = ([], some (differentTypeMsg o1 o2)))
    ∧ (∃ s u, s ++ o1 ++ u = differentTypeMsg o1 o2)
    ∧ (∃ s u, s ++ o2 ++ u = differentTypeMsg o1 o2) := by
  refine ⟨fun fileEffects dirEffects => ?_,
    ⟨[], " and ".toList ++ o2 ++ " are of different type, aborted".toList, ?_⟩,
    ⟨o1 ++ " and ".toList, " are of different type, aborted".toList, ?_⟩⟩
  · simp [make_diff_run, make_diff, h1, h2, hreg, hdir]
  · simp [differentTypeMsg]
  · simp [differentTypeMsg]

/-- Witness for C8: a regular file against a directory aborts with the
type-mismatch message and performs no write. -/
theorem c8_witness :
    make_diff_run fsMix "a".toList "b".toList [] []
      = ([], some (differentTypeMsg "a".toList "b".toList)) :=
  (c8_make_diff_mismatch fsMix "a".toList "b".toList Node.regular Node.directory
    (by decide) (by decide) (by decide) (by decide)).1 [] []

/-- Claim C7 — confirmed: for a pathname longer than a positive width the
rendered title has exactly that width, and when the width exceeds the
3-character ellipsis marker the title is the marker followed by the
pathname's final `width - 3` characters. -/
theorem c7_make_title_truncation (path : Chars) (w : Int)
    (hw : 0 < w) (hlen : w < (path.length : Int)) :
    (make_title path w).length = w.toNat
    ∧ (3 < w → (make_title path w).take 3 = "...".toList
        ∧ (make_title path w).drop 3 = path.drop (path.length - (w.toNat - 3))) := by
  have hpos : 0 < path.length := by omega
  have hne : path ≠ [] := List.length_pos.mp hpos
  have hgt : (path.length : Int) > w := hlen
  by_cases h3 : 3 < w
  · have hk : (w - 3).toNat = w.toNat - 3 := by omega
    have e1 : make_title path w = "...".toList ++ path.drop (path.length - (w.toNat - 3)) := by
      simp only [make_title, if_neg hne, if_neg (not_le.mpr hw), if_pos hgt, if_pos h3, hk]
    rw [e1]
    refine ⟨?_, fun _ => ⟨?_, ?_⟩⟩
    · rw [List.length_append, List.length_drop]
      have h1 : ("...".toList).length = 3 := rfl
      rw [h1]; omega
    · rw [show (3 : Nat) = ("...".toList).length from rfl, List.take_left]
    · rw [show (3 : Nat) = ("...".toList).length from rfl, List.drop_left]
  · have e1 : make_title path w = path.drop (path.length - w.toNat) := by
      simp only [make_title, if_neg hne, if_neg (not_le.mpr hw), if_pos hgt, if_neg h3]
    rw [e1]
    exact ⟨by rw [List.length_drop]; omega, fun h => absurd h h3⟩

/-- Witness for C7: a 50-character path truncated to width 10 is exactly
10 characters, the marker plus the final 7. -/
theorem c7_witness :
    (make_title p50 10).length = (10 : Int).toNat
    ∧ (make_title p50 10).take 3 = "...".toList
    ∧ (make_title p50 10).drop 3 = p50.drop (p50.length - ((10 : Int).toNat - 3)) :=
  ⟨(c7_make_title_truncation p50 10 (by decide) (by decide)).1,
   ((c7_make_title_truncation p50 10 (by decide) (by decide)).2 (by decide)).1,
   ((c7_make_title_truncation p50 10 (by decide) (by decide)).2 (by decide)).2⟩

/-- Counterexample for C1: a both-sides entry with all-zero cdiff counts
(the Unchanged classification) still executes `summary['changed'] += 1`
(line 725 runs for the `same` template too), so the global Changed counter
reads 1 where the claim predicts no increment. -/
theorem c1_counterexample :
    processEntry cfgOff envUnchanged = EntryOutcome.changedRow ⟨0, 0, 0⟩
    ∧ (diff_dir_by_list cfgOff "out".toList 1000 [("f.c".toList, envUnchanged)]).summary.changed = 1 :=
  ⟨rfl, by decide⟩

/-- Counterexample for C9: a run whose only entry is skipped (not found on
either side) still creates the output directory — `os.makedirs` runs for
every listed path before classification — so the effect list is not empty,
where the claim predicts that nothing under the output destination is
created. -/
theorem c9_counterexample :
    (processEntry cfgOff envNotFound).isSkipped = true
    ∧ (diff_dir_by_list cfgOff "out".toList 1000 [("gone.txt".toList, envNotFound)]).effects
        = [Effect.mkdirs "out/".toList]
    ∧ (diff_dir_by_list cfgOff "out".toList 1000 [("gone.txt".toList, envNotFound)]).effects ≠ [] := by
  refine ⟨rfl, by decide, by decide⟩

/-- Counterexample for C3: on a replace hunk with one `! ` line in the old
half and two in the new half, `cdiff_to_html` counts `changed = 1` — it
increments inside the `*** ` (old) half — while the claim's reading (count
the new half, after the `--- ` header) demands 2. -/
theorem c3_counterexample :
    (cdiff_to_html exCdiff).1.changed = 1
    ∧ changedNewCount false exCdiff = 2
    ∧ ¬ ((cdiff_to_html exCdiff).1.changed = changedNewCount false exCdiff) := by
  decide

/-- The sealing case of `Pager.add`: the fragment that makes the count
reach the maximum lands alone on a freshly appended page. -/
theorem pager_add_seal (p : Pager) (item : Chars)
    (hi : item ≠ []) (hc : p.count + 1 ≥ p.numitem) :
    p.add item = ⟨p.numitem, p.pages ++ [item], 0⟩ := by
  simp only [Pager.add, if_neg hi, if_pos hc, List.dropLast_concat, List.getLastD_concat,
    List.nil_append]

/-- The non-sealing case of `Pager.add`: the fragment extends the last
page. -/
theorem pager_add_noseal (p : Pager) (item : Chars)
    (hi : item ≠ []) (hc : ¬ p.count + 1 ≥ p.numitem) :
    p.add item = ⟨p.numitem, p.pages.dropLast ++ [p.pages.getLastD [] ++ item], p.count + 1⟩ := by
  simp only [Pager.add, if_neg hi, if_neg hc]

/-- Successor arithmetic for the pager count: what `(k + 1) % M` and
`(k + 1) / M` are, depending on whether `k % M + 1` reaches `M`. -/
theorem mod_div_succ (M k : Nat) (hM : 1 ≤ M) :
    (k % M + 1 ≥ M → (k + 1) % M = 0 ∧ (k + 1) / M = k / M + 1)
    ∧ (k % M + 1 < M → (k + 1) % M = k % M + 1 ∧ (k + 1) / M = k / M) := by
  have hlt : k % M < M := Nat.mod_lt _ hM
  have hdm : M * (k / M) + k % M = k := Nat.div_add_mod k M
  constructor
  · intro h
    have hk1 : k + 1 = M * (k / M + 1) := by rw [Nat.mul_succ]; omega
    exact ⟨by rw [hk1]; exact Nat.mul_mod_right M _,
           by rw [hk1]; exact Nat.mul_div_cancel_left _ (by omega)⟩
  · intro h
    have hk1 : k + 1 = M * (k / M) + (k % M + 1) := by omega
    refine ⟨?_, ?_⟩
    · rw [hk1, Nat.mul_add_mod]; exact Nat.mod_eq_of_lt h
    · rw [hk1, Nat.mul_add_div (by omega : 0 < M), Nat.div_eq_of_lt h, Nat.add_zero]

/-- Invariant of feeding non-empty fragments to a pager: with `k` counted
fragments behind it, a pager holding `1 + k / M` nonempty-listed pages and
count `k % M` moves to `1 + (k + N) / M` pages after `N` more fragments,
and the concatenation of its pages grows by exactly the fragments fed. -/
theorem pager_addAll_spec (M : Nat) (hM : 1 ≤ M) :
    ∀ (items : List Chars), (∀ i ∈ items, i ≠ []) →
    ∀ (p : Pager) (k : Nat),
      p.numitem = M → p.count = k % M → p.pages.length = 1 + k / M → p.pages ≠ [] →
      (p.addAll items).pages.length = 1 + (k + items.length) / M
      ∧ (p.addAll items).pages.flatten = p.pages.flatten ++ items.flatten
      ∧ (p.addAll items).pages ≠ [] := by
  intro items
  induction items with
  | nil => intro _ p k hn hc hl hne; simpa [Pager.addAll] using ⟨hl, hne⟩
  | cons it its ih =>
    intro h p k hn hc hl hne
    have hi : it ≠ [] := h it (List.mem_cons_self _ _)
    have hstep : (p.addAll (it :: its)) = ((p.add it).addAll its) := rfl
    have hlen : k + 1 + its.length = k + (it :: its).length := by
      simp [List.length_cons]; omega
    by_cases hseal : p.count + 1 ≥ p.numitem
    · have harith := (mod_div_succ M k hM).1 (by rw [hn, hc] at hseal; omega)
      have hadd := pager_add_seal p it hi hseal
      have h1 := ih (fun i hmem => h i (List.mem_cons_of_mem _ hmem)) (p.add it) (k + 1)
        (by rw [hadd]; exact hn)
        (by rw [hadd, harith.1])
        (by rw [hadd]; simp only [List.length_append, List.length_singleton]
            rw [harith.2]; omega)
        (by rw [hadd]; simp)
      rw [hstep]
      refine ⟨?_, ?_, h1.2.2⟩
      · rw [h1.1, hlen]
      · rw [h1.2.1, hadd]
        simp [List.append_assoc]
    · have harith := (mod_div_succ M k hM).2 (by rw [hn, hc] at hseal; omega)
      have hadd := pager_add_noseal p it hi hseal
      obtain ⟨xs, x, hpp⟩ := (List.eq_nil_or_concat p.pages).resolve_left hne
      rw [List.concat_eq_append] at hpp
      rw [hpp] at hl
      have hl' : xs.length + 1 = 1 + k / M := by simpa using hl
      have h1 := ih (fun i hmem => h i (List.mem_cons_of_mem _ hmem)) (p.add it) (k + 1)
        (by rw [hadd]; exact hn)
        (by rw [hadd, harith.1]; simp [hc])
        (by rw [hadd, hpp]
            simp only [List.dropLast_concat, List.getLastD_concat, List.length_append,
              List.length_singleton]
            rw [harith.2]; omega)
        (by rw [hadd]; simp)
      rw [hstep]
      refine ⟨?_, ?_, h1.2.2⟩
      · rw [h1.1, hlen]
      · rw [h1.2.1, hadd, hpp]
        simp [List.dropLast_concat, List.getLastD_concat, List.append_assoc]

/-- Claim C2, amended: `Pager.add` seals the current page *before*
appending the fragment whose count reached the maximum, so for `N`
non-empty fragments and maximum `M ≥ 1` the number of pages is
`1 + ⌊N / M⌋` — not `⌈N / M⌉`; in particular `M = 1` yields an empty page
0 followed by one page per fragment.  Every fragment still lands wholly on
exactly one page (the pages concatenate to the fragments in order, and
each `add` either extends the last page or opens a fresh one), and if `N`
never reaches `M` exactly one page exists. -/
theorem c2_pagination (M : Nat) (items : List Chars)
    (hM : 1 ≤ M) (h : ∀ i ∈ items, i ≠ []) :
    ((Pager.init M).addAll items).pages.length = 1 + items.length / M
    ∧ ((Pager.init M).addAll items).pages.flatten = items.flatten
    ∧ (items.length < M → ((Pager.init M).addAll items).pages.length = 1)
    ∧ ∀ (q : Pager) (it : Chars), it ≠ [] →
        (q.add it).pages = q.pages ++ [it]
        ∨ (q.add it).pages = q.pages.dropLast ++ [q.pages.getLastD [] ++ it] := by
  have base := pager_addAll_spec M hM items h (Pager.init M) 0 rfl
    (by simp [Pager.init]) (by simp [Pager.init]) (by simp [Pager.init])
  refine ⟨by simpa using base.1, by simpa [Pager.init] using base.2.1, ?_, ?_⟩
  · intro hlt
    have := base.1
    rw [Nat.zero_add, Nat.div_eq_of_lt hlt] at this
    simpa using this
  · intro q it hi
    by_cases hc : q.count + 1 ≥ q.numitem
    · exact Or.inl (by rw [pager_add_seal q it hi hc])
    · exact Or.inr (by rw [pager_add_noseal q it hi hc])

/-- Witness for C2: two fragments at maximum 2 give `1 + 2 / 2 = 2` pages
whose concatenation is the two fragments, and a concrete `add` lands its
fragment on one page. -/
theorem c2_witness :
    (((Pager.init 2).addAll [['a'], ['b']]).pages.length
        = 1 + ([['a'], ['b']] : List Chars).length / 2)
    ∧ (((Pager.init 2).addAll [['a'], ['b']]).pages.flatten = ([['a'], ['b']] : List Chars).flatten)
    ∧ (((Pager.init 3).add ['a']).pages = (Pager.init 3).pages ++ [['a']]
        ∨ ((Pager.init 3).add ['a']).pages
            = (Pager.init 3).pages.dropLast ++ [(Pager.init 3).pages.getLastD [] ++ ['a']]) :=
  ⟨(c2_pagination 2 [['a'], ['b']] (by decide) (by decide)).1,
   (c2_pagination 2 [['a'], ['b']] (by decide) (by decide)).2.1,
   (c2_pagination 2 [['a'], ['b']] (by decide) (by decide)).2.2.2 (Pager.init 3) ['a'] (by decide)⟩

/-- A character that is not one of `&`, `>`, `<` passes through
`html_filter` unchanged. -/
theorem htmlFilterChar_of_safe {c : Char} (h1 : c ≠ '&') (h2 : c ≠ '>') (h3 : c ≠ '<') :
    htmlFilterChar c = [c] := by
  simp [htmlFilterChar, h1, h2, h3]

/-- The head of a list whose `take (n + 1)` starts with `d` is `d`. -/
theorem head_of_take_cons {l r : Chars} {n : Nat} {d : Char}
    (h : l.take (n + 1) = d :: r) : l.head? = some d := by
  cases l with
  | nil => simp at h
  | cons a t =>
    rw [List.take_succ_cons, List.cons.injEq] at h
    simp [h.1]

/-- Taking an escape-free pattern off the front of a filtered line succeeds
exactly when it succeeds on the raw line: escaping only ever *introduces*
`&`-headed sequences. -/
theorem html_filter_take_iff :
    ∀ (p : Chars), (∀ c ∈ p, c ≠ '&' ∧ c ≠ '<' ∧ c ≠ '>') →
    ∀ (l : Chars), ((html_filter l).take p.length = p ↔ l.take p.length = p) := by
  intro p
  induction p with
  | nil => intro _ l; simp
  | cons d p' ih =>
    intro hp l
    have hd := hp d (List.mem_cons_self _ _)
    have hp' : ∀ c ∈ p', c ≠ '&' ∧ c ≠ '<' ∧ c ≠ '>' :=
      fun c hc => hp c (List.mem_cons_of_mem _ hc)
    cases l with
    | nil => simp [html_filter]
    | cons c l' =>
      have hsplit : html_filter (c :: l') = htmlFilterChar c ++ html_filter l' := rfl
      simp only [List.length_cons]
      by_cases hesc : c = '&' ∨ c = '>' ∨ c = '<'
      · have hfhead : (html_filter (c :: l')).head? = some '&' := by
          rcases hesc with h | h | h <;> subst h <;> rfl
        have hrhead : (c :: l').head? = some c := rfl
        constructor
        · intro h
          have := head_of_take_cons h
          rw [hfhead] at this
          exact absurd (Option.some.inj this) (Ne.symm hd.1)
        · intro h
          have := head_of_take_cons h
          rw [hrhead] at this
          have hcd := Option.some.inj this
          rcases hesc with h' | h' | h' <;> rw [h'] at hcd
          · exact absurd hcd (Ne.symm hd.1)
          · exact absurd hcd (Ne.symm hd.2.2)
          · exact absurd hcd (Ne.symm hd.2.1)
      · push_neg at hesc
        rw [hsplit, htmlFilterChar_of_safe hesc.1 hesc.2.1 hesc.2.2]
        simp only [List.cons_append, List.nil_append, List.take_succ_cons, List.cons.injEq]
        rw [ih hp' l']

/-- The full prefix test of `cdiff_to_html` — original length bound plus
prefix of the filtered line — is equivalent to the raw prefix test, for
escape-free patterns. -/
theorem html_filter_cond_iff (p : Chars) (hp : ∀ c ∈ p, c ≠ '&' ∧ c ≠ '<' ∧ c ≠ '>')
    (k : Nat) (hk : p.length = k) (l : Chars) :
    (l.length ≥ k ∧ (html_filter l).take k = p) ↔ l.take k = p := by
  subst hk
  constructor
  · rintro ⟨-, h⟩
    exact (html_filter_take_iff p hp l).mp h
  · intro h
    refine ⟨?_, (html_filter_take_iff p hp l).mpr h⟩
    have hl := congrArg List.length h
    rw [List.length_take] at hl
    omega

/-- A four-character prefix determines the two-character prefix. -/
theorem take2_of_take4 {l : Chars} {a b c d : Char} (h : l.take 4 = [a, b, c, d]) :
    l.take 2 = [a, b] := by
  have h2 := congrArg (List.take 2) h
  rw [List.take_take] at h2
  simpa using h2

/-- What one `cdiff_to_html` loop iteration does to the summary and the
`old_group` flag, phrased over the raw (unfiltered) line prefixes. -/
theorem cdiffStep_sum_og (sum : DiffSummary) (og : Bool) (body : Chars) (l : Chars) :
    (cdiffStep (sum, og, body) l).1 =
      ⟨sum.changed + (if l.take 2 = "! ".toList ∧ og = true then 1 else 0),
       sum.deleted + (if l.take 2 = "- ".toList then 1 else 0),
       sum.added + (if l.take 2 = "+ ".toList then 1 else 0)⟩
    ∧ (cdiffStep (sum, og, body) l).2.1 = ogStep og l := by
  have hstar := html_filter_cond_iff "*** ".toList (by decide) 4 (by decide) l
  have hdash4 := html_filter_cond_iff "--- ".toList (by decide) 4 (by decide) l
  have hsp := html_filter_cond_iff "  ".toList (by decide) 2 (by decide) l
  have hbang := html_filter_cond_iff "! ".toList (by decide) 2 (by decide) l
  have hdash2 := html_filter_cond_iff "- ".toList (by decide) 2 (by decide) l
  have hplus := html_filter_cond_iff "+ ".toList (by decide) 2 (by decide) l
  simp only [cdiffStep, hstar, hdash4, hsp, hbang, hdash2, hplus]
  by_cases g1 : l.take 4 = ['*', '*', '*', ' ']
  · have g1' := take2_of_take4 g1
    simp [g1, g1', ogStep]
  · by_cases g2 : l.take 4 = ['-', '-', '-', ' ']
    · have g2' := take2_of_take4 g2
      simp [g1, g2, g2', ogStep]
    · by_cases g3 : l.take 2 = [' ', ' ']
      · simp [g1, g2, g3, ogStep]
      · by_cases g4 : l.take 2 = ['!', ' ']
        · cases og <;> simp [g1, g2, g3, g4, ogStep]
        · by_cases g5 : l.take 2 = ['-', ' ']
          · simp [g1, g2, g3, g4, g5, ogStep]
          · by_cases g6 : l.take 2 = ['+', ' ']
            · simp [g1, g2, g3, g4, g5, g6, ogStep]
            · have g1' : ¬ l.take 4 = "*** ".toList := g1
              have g2' : ¬ l.take 4 = "--- ".toList := g2
              have g3' : ¬ l.take 2 = "  ".toList := g3
              have g4' : ¬ l.take 2 = "! ".toList := g4
              have g5' : ¬ l.take 2 = "- ".toList := g5
              have g6' : ¬ l.take 2 = "+ ".toList := g6
              simp only [ogStep, if_neg g1', if_neg g2', if_neg g3', if_neg g4', if_neg g5',
                if_neg g6', if_neg (fun h => g4' (And.left h))]
              constructor <;> (split <;> rfl)

/-- The summary computed by folding `cdiffStep` over a line list: `changed`
counts `! ` lines in old halves, `deleted` counts `- ` lines, `added`
counts `+ ` lines, added to whatever the start state held. -/
theorem cdiff_fold_spec :
    ∀ (cdiff : List Chars) (sum : DiffSummary) (og : Bool) (body : Chars),
      (cdiff.foldl cdiffStep (sum, og, body)).1 =
        ⟨sum.changed + changedOldCount og cdiff,
         sum.deleted + deletedLineCount cdiff,
         sum.added + addedLineCount cdiff⟩ := by
  intro cdiff
  induction cdiff with
  | nil =>
    intro sum og body
    simp [changedOldCount, deletedLineCount, addedLineCount]
  | cons l ls ih =>
    intro sum og body
    rw [List.foldl_cons]
    have hstep := cdiffStep_sum_og sum og body l
    have heta : cdiffStep (sum, og, body) l
        = ((cdiffStep (sum, og, body) l).1, (cdiffStep (sum, og, body) l).2.1,
           (cdiffStep (sum, og, body) l).2.2) := rfl
    rw [heta, hstep.1, hstep.2, ih]
    simp only [changedOldCount, deletedLineCount, addedLineCount, List.countP_cons,
      decide_eq_true_eq, DiffSummary.mk.injEq]
    refine ⟨by omega, ?_, ?_⟩ <;> split_ifs <;> omega

/-- Claim C3, amended: the context-mode summary increments `changed` once
per `! ` line in the *old* half of a hunk — the half introduced by the
`*** ` header, not the `--- ` header as claimed — and, as claimed, one
`deleted` per pure-delete (`- `) line and one `added` per pure-insert
(`+ `) line. -/
theorem c3_cdiff_counts (cdiff : List Chars) :
    (cdiff_to_html cdiff).1 =
      ⟨changedOldCount false cdiff, deletedLineCount cdiff, addedLineCount cdiff⟩ := by
  have h := cdiff_fold_spec cdiff ⟨0, 0, 0⟩ false []
  simpa [cdiff_to_html] using h

/-- What a successful scan means: the index found is at or after the start
of the scan, inside the scanned segment, and carries the sought character. -/
theorem findFromGo_spec (c : Char) :
    ∀ (l : List Char) (i j : Nat), findFromGo c l i = some j →
      i ≤ j ∧ j - i < l.length ∧ l.getD (j - i) ' ' = c := by
  intro l
  induction l with
  | nil => intro i j h; simp [findFromGo] at h
  | cons a t ih =>
    intro i j h
    rw [findFromGo] at h
    by_cases hac : a = c
    · rw [if_pos hac] at h
      obtain rfl := (Option.some.inj h)
      exact ⟨le_refl _, by simp, by simp [hac, List.getD]⟩
    · rw [if_neg hac] at h
      have h2 := ih (i + 1) j h
      refine ⟨by omega, by simp only [List.length_cons]; omega, ?_⟩
      have he : j - i = (j - (i + 1)) + 1 := by omega
      rw [he]
      simpa [List.getD] using h2.2.2

/-- What a successful `find('/', start)` means on the whole string. -/
theorem findFrom_spec (name : Chars) (start j : Nat)
    (h : findFrom name '/' start = some j) :
    start ≤ j ∧ j < name.length ∧ name.getD j ' ' = '/' := by
  have h2 := findFromGo_spec '/' (name.drop start) start j h
  have hlen : (name.drop start).length = name.length - start := List.length_drop _ _
  refine ⟨h2.1, by omega, ?_⟩
  have h3 := h2.2.2
  rw [List.getD_eq_getElem?_getD, List.getElem?_drop] at h3
  rw [show start + (j - start) = j by omega] at h3
  rw [List.getD_eq_getElem?_getD]
  exact h3

/-- The slash-skipping loop never moves backwards. -/
theorem skipSlashesGo_ge (name : Chars) (t : Nat) :
    ∀ fuel i, i ≤ skipSlashesGo name t fuel i := by
  intro fuel
  induction fuel with
  | zero => intro i; exact le_refl _
  | succ n ih =>
    intro i
    rw [skipSlashesGo]
    split
    · exact le_trans (by omega) (ih (i + 1))
    · exact le_refl i

/-- The slash-skipping loop advances at most `fuel` positions. -/
theorem skipSlashesGo_le (name : Chars) (t : Nat) :
    ∀ fuel i, skipSlashesGo name t fuel i ≤ i + fuel := by
  intro fuel
  induction fuel with
  | zero => intro i; simp [skipSlashesGo]
  | succ n ih =>
    intro i
    rw [skipSlashesGo]
    split
    · exact le_trans (ih (i + 1)) (by omega)
    · omega

/-- Standing on a slash inside the string, the skip loop advances. -/
theorem skipSlashes_gt (name : Chars) (t i : Nat)
    (hle : i ≤ t) (hc : name.getD i ' ' = '/') :
    i + 1 ≤ skipSlashes name t i := by
  unfold skipSlashes
  rw [show t + 1 - i = (t - i) + 1 by omega, skipSlashesGo, if_pos ⟨hle, hc⟩]
  exact skipSlashesGo_ge name t (t - i) (i + 1)

/-- The skip loop never passes position `t + 1`. -/
theorem skipSlashes_le (name : Chars) (t i : Nat) (hle : i ≤ t) :
    skipSlashes name t i ≤ t + 1 := by
  unfold skipSlashes
  have := skipSlashesGo_le name t (t + 1 - i) i
  omega

/-- Once `find` fails, the outer loop breaks whatever `p` remains. -/
theorem stripLoop_stuck (name : Chars) (t cur : Nat)
    (h : findFrom name '/' cur = none) :
    ∀ p, stripLoop name t cur p = cur := by
  intro p
  cases p with
  | zero => rfl
  | succ n => simp [stripLoop, h]

/-- The outer loop's cursor stabilizes: asking for at least `length - cur`
strips gives the same cursor as asking for exactly that many — every
successful iteration advances the cursor strictly, so at most
`length - cur` iterations can succeed. -/
theorem stripLoop_stabilize (name : Chars) :
    ∀ cur p, name.length - cur ≤ p →
      stripLoop name (name.length - 1) cur p
        = stripLoop name (name.length - 1) cur (name.length - cur) := by
  suffices H : ∀ d cur p, name.length - cur = d → name.length - cur ≤ p →
      stripLoop name (name.length - 1) cur p
        = stripLoop name (name.length - 1) cur (name.length - cur) from
    fun cur p hp => H (name.length - cur) cur p rfl hp
  intro d
  induction d using Nat.strong_induction_on with
  | _ d ih =>
    intro cur p hd hp
    cases hfind : findFrom name '/' cur with
    | none => rw [stripLoop_stuck name _ cur hfind, stripLoop_stuck name _ cur hfind]
    | some i =>
      obtain ⟨hci, hilen, hslash⟩ := findFrom_spec name cur i hfind
      have hit : i ≤ name.length - 1 := by omega
      have hgt : i + 1 ≤ skipSlashes name (name.length - 1) i :=
        skipSlashes_gt name _ i hit hslash
      have hle' : skipSlashes name (name.length - 1) i ≤ name.length := by
        have := skipSlashes_le name (name.length - 1) i hit; omega
      obtain ⟨p', rfl⟩ : ∃ p', p = p' + 1 := ⟨p - 1, by omega⟩
      rw [show name.length - cur = (name.length - cur - 1) + 1 by omega]
      rw [stripLoop, stripLoop]
      simp only [hfind]
      have e1 := ih (name.length - skipSlashes name (name.length - 1) i) (by omega)
        (skipSlashes name (name.length - 1) i) p' rfl (by omega)
      have e2 := ih (name.length - skipSlashes name (name.length - 1) i) (by omega)
        (skipSlashes name (name.length - 1) i) (name.length - cur - 1) rfl (by omega)
      rw [e1, e2]

/-- Claim C6 — confirmed: the three `strip_prefix` vectors hold, and
stripping stops early when the components run out — any request of at
least `length` strips (in particular, more components than exist) yields
the same result as requesting exactly `length`, the point past which every
request has already stabilized. -/
theorem c6_strip_prefix_spec :
    ( strip_prefix "/foo/bar/a/b/x.c".toList 2 = "bar/a/b/x.c".toList)
    ∧ ( strip_prefix "foo/bar/a/b/x.c".toList 9 = "x.c".toList)
    ∧ ( strip_prefix "./foo/bar/a/b/x.c".toList 1 = "foo/bar/a/b/x.c".toList)
    ∧ ∀ (name : Chars) (p : Nat), name.length ≤ p →
        strip_prefix name p = strip_prefix name name.length := by
  refine ⟨by decide, by decide, by decide, fun name p hp => ?_⟩
  unfold strip_prefix
  rw [stripLoop_stabilize name 0 p (by omega), Nat.sub_zero]

/-- Witness for C6: requesting five strips of a two-component path gives
the fully-stripped result. -/
theorem c6_witness :
    strip_prefix "a/b".toList 5 = strip_prefix "a/b".toList ("a/b".toList).length :=
  c6_strip_prefix_spec.2.2.2 "a/b".toList 5 (by decide)

/-- A nonempty list is not `isEmpty`. -/
theorem isEmpty_false_of_ne_nil {l : Chars} (h : l ≠ []) : l.isEmpty = false := by
  cases l with
  | nil => exact absurd rfl h
  | cons a t => rfl

/-- An append whose left part is nonempty is nonempty. -/
theorem ne_nil_left {a b : Chars} (h : a ≠ []) : a ++ b ≠ [] := by
  intro hh
  exact h (List.append_eq_nil.mp hh).1

/-- The deleted-row template renders nonempty. -/
theorem deleted_data_row_ne_nil (f u : Chars) : deleted_data_row f u ≠ [] := by
  unfold deleted_data_row
  repeat apply ne_nil_left
  decide

/-- The added-row template renders nonempty. -/
theorem added_data_row_ne_nil (f u : Chars) : added_data_row f u ≠ [] := by
  unfold added_data_row
  repeat apply ne_nil_left
  decide

/-- The same-row template renders nonempty. -/
theorem same_data_row_ne_nil (f u : Chars) : same_data_row f u ≠ [] := by
  unfold same_data_row
  repeat apply ne_nil_left
  decide

/-- The diff-row template renders nonempty. -/
theorem diff_data_row_ne_nil (f u : Chars) (c d a : Nat) : diff_data_row f u c d a ≠ [] := by
  unfold diff_data_row
  repeat apply ne_nil_left
  decide

/-- What the loop fold does to the global summary and the pager: the
summary components count the Changed-branch, Deleted-branch and
Added-branch outcomes, and the pager receives exactly the `data_row`
sequence. -/
theorem run_fold_state (cfg : Config) (out : Chars) :
    ∀ (entries : List (Chars × EntryEnv)) (st : RunState),
      (entries.foldl (stepEntry cfg out) st).summary =
        ⟨st.summary.changed + (outcomesOf cfg entries).countP EntryOutcome.isChangedRow,
         st.summary.deleted + (outcomesOf cfg entries).countP EntryOutcome.isDeletedRow,
         st.summary.added + (outcomesOf cfg entries).countP EntryOutcome.isAddedRow⟩
      ∧ (entries.foldl (stepEntry cfg out) st).pager = st.pager.addAll (rowsOf cfg entries) := by
  intro entries
  induction entries with
  | nil =>
    intro st
    simp [outcomesOf, rowsOf, Pager.addAll]
  | cons fe fes ih =>
    intro st
    obtain ⟨f, e⟩ := fe
    rw [List.foldl_cons]
    have h2 := ih (stepEntry cfg out st (f, e))
    refine ⟨?_, ?_⟩
    · rw [h2.1]
      have hout : outcomesOf cfg ((f, e) :: fes) = processEntry cfg e :: outcomesOf cfg fes := rfl
      rw [hout]
      cases ho : processEntry cfg e <;>
        simp [stepEntry, addOutcome, ho, List.countP_cons, EntryOutcome.isChangedRow,
          EntryOutcome.isDeletedRow, EntryOutcome.isAddedRow] <;> omega
    · rw [h2.2]
      have hrows : rowsOf cfg ((f, e) :: fes)
          = match entryRow f (quote f) (processEntry cfg e) with
            | some r => r :: rowsOf cfg fes
            | none => rowsOf cfg fes := by
        simp [rowsOf, List.filterMap_cons]
        split <;> simp_all
      cases hr : entryRow f (quote f) (processEntry cfg e) with
      | none => rw [hrows]; simp only [hr]; simp [stepEntry, hr]
      | some r => rw [hrows]; simp only [hr]; simp [stepEntry, hr, Pager.addAll]

/-- Each non-skipped outcome hands the pager one nonempty fragment; skips
hand it nothing that counts. -/
theorem rows_nonempty_count (cfg : Config) :
    ∀ entries : List (Chars × EntryEnv),
      (rowsOf cfg entries).countP (fun r => ! r.isEmpty)
        = (outcomesOf cfg entries).countP (fun o => ! o.isSkipped) := by
  intro entries
  induction entries with
  | nil => rfl
  | cons fe fes ih =>
    obtain ⟨f, e⟩ := fe
    have hout : outcomesOf cfg ((f, e) :: fes) = processEntry cfg e :: outcomesOf cfg fes := rfl
    rw [hout, List.countP_cons]
    cases ho : processEntry cfg e with
    | skipped r =>
      cases r <;>
        simp [rowsOf, List.filterMap_cons, entryRow, ho, List.countP_cons,
          EntryOutcome.isSkipped, ih, rowsOf] <;>
        exact ih
    | deletedRow =>
      have hne := isEmpty_false_of_ne_nil (deleted_data_row_ne_nil f (quote f))
      simp [rowsOf, List.filterMap_cons, entryRow, ho, List.countP_cons, hne,
        EntryOutcome.isSkipped]
      exact ih
    | addedRow =>
      have hne := isEmpty_false_of_ne_nil (added_data_row_ne_nil f (quote f))
      simp [rowsOf, List.filterMap_cons, entryRow, ho, List.countP_cons, hne,
        EntryOutcome.isSkipped]
      exact ih
    | changedRow s =>
      have hne : (entryRow f (quote f) (EntryOutcome.changedRow s)).getD [] ≠ [] := by
        simp only [entryRow, Option.getD_some]
        split
        · exact same_data_row_ne_nil f (quote f)
        · exact diff_data_row_ne_nil f (quote f) s.changed s.deleted s.added
      have hne' := isEmpty_false_of_ne_nil hne
      simp only [entryRow, Option.getD_some] at hne'
      simp [rowsOf, List.filterMap_cons, entryRow, ho, List.countP_cons, hne',
        EntryOutcome.isSkipped]
      exact ih

/-- Claim C1, amended: every non-skipped entry contributes exactly one
nonempty row fragment to the pager and exactly one increment to a global
counter — Deleted-branch entries to `deleted`, Added-branch entries to
`added`, and *every* both-sides candidate to `changed`, including an entry
whose cdiff counts are all zero (classification Unchanged): line 725 runs
for the `same` template too, so Unchanged increments `changed` rather than
none of the three. -/
theorem c1_rows_and_counters (cfg : Config) (out : Chars) (ps : Nat)
    (entries : List (Chars × EntryEnv)) :
    (diff_dir_by_list cfg out ps entries).summary =
      ⟨(outcomesOf cfg entries).countP EntryOutcome.isChangedRow,
       (outcomesOf cfg entries).countP EntryOutcome.isDeletedRow,
       (outcomesOf cfg entries).countP EntryOutcome.isAddedRow⟩
    ∧ (diff_dir_by_list cfg out ps entries).pager = (Pager.init ps).addAll (rowsOf cfg entries)
    ∧ (rowsOf cfg entries).countP (fun r => ! r.isEmpty)
        = (outcomesOf cfg entries).countP (fun o => ! o.isSkipped) := by
  have h := run_fold_state cfg out entries ⟨⟨0, 0, 0⟩, false, Pager.init ps, []⟩
  have hsum : (diff_dir_by_list cfg out ps entries).summary
      = (entries.foldl (stepEntry cfg out) ⟨⟨0, 0, 0⟩, false, Pager.init ps, []⟩).summary := by
    simp only [diff_dir_by_list]
    split <;> rfl
  have hpag : (diff_dir_by_list cfg out ps entries).pager
      = (entries.foldl (stepEntry cfg out) ⟨⟨0, 0, 0⟩, false, Pager.init ps, []⟩).pager := by
    simp only [diff_dir_by_list]
    split <;> rfl
  refine ⟨?_, ?_, rows_nonempty_count cfg entries⟩
  · rw [hsum, h.1]; simp
  · rw [hpag, h.2]

/-- A run whose entries are all skipped leaves `has_diff` unset and
performs only the unconditional `makedirs` calls. -/
theorem all_skipped_fold (cfg : Config) (out : Chars) :
    ∀ entries : List (Chars × EntryEnv),
      (∀ fe ∈ entries, (processEntry cfg fe.2).isSkipped = true) →
      ∀ st : RunState,
        (entries.foldl (stepEntry cfg out) st).hasDiff = st.hasDiff
        ∧ (entries.foldl (stepEntry cfg out) st).effects
            = st.effects ++ entries.map (fun fe => Effect.mkdirs (pjoin out (dirname fe.1))) := by
  intro entries
  induction entries with
  | nil => intro _ st; simp
  | cons fe fes ih =>
    intro h st
    obtain ⟨f, e⟩ := fe
    have hsk : (processEntry cfg e).isSkipped = true := h (f, e) (List.mem_cons_self _ _)
    cases ho : processEntry cfg e with
    | skipped r =>
      have h2 := ih (fun x hx => h x (List.mem_cons_of_mem _ hx)) (stepEntry cfg out st (f, e))
      rw [List.foldl_cons]
      refine ⟨?_, ?_⟩
      · rw [h2.1]; simp [stepEntry, ho, EntryOutcome.isSkipped]
      · rw [h2.2]; simp [stepEntry, entryEffects, ho, List.append_assoc]
    | deletedRow => rw [ho] at hsk; simp [EntryOutcome.isSkipped] at hsk
    | addedRow => rw [ho] at hsk; simp [EntryOutcome.isSkipped] at hsk
    | changedRow s => rw [ho] at hsk; simp [EntryOutcome.isSkipped] at hsk

/-- Claim C9, amended: when every entry of the run is skipped, no index
page and no per-file artifact is written — but the run is not free of
filesystem effects: `os.makedirs` still creates the output directory (and
any per-entry subdirectories) for every listed path, because it runs
before classification.  Every effect of such a run is a `makedirs`. -/
theorem c9_all_skipped_only_mkdirs (cfg : Config) (out : Chars) (ps : Nat)
    (entries : List (Chars × EntryEnv))
    (h : ∀ fe ∈ entries, (processEntry cfg fe.2).isSkipped = true) :
    (diff_dir_by_list cfg out ps entries).hasDiff = false
    ∧ ∀ eff ∈ (diff_dir_by_list cfg out ps entries).effects, ∃ q, eff = Effect.mkdirs q := by
  have hf := all_skipped_fold cfg out entries h ⟨⟨0, 0, 0⟩, false, Pager.init ps, []⟩
  have hrun : diff_dir_by_list cfg out ps entries
      = entries.foldl (stepEntry cfg out) ⟨⟨0, 0, 0⟩, false, Pager.init ps, []⟩ := by
    simp only [diff_dir_by_list]
    rw [if_neg]
    rw [hf.1]
    simp
  rw [hrun, hf.1, hf.2]
  refine ⟨rfl, ?_⟩
  intro eff heff
  rw [List.nil_append] at heff
  obtain ⟨fe, -, rfl⟩ := List.mem_map.mp heff
  exact ⟨_, rfl⟩

/-- Witness for C9: the one-entry not-found run has `has_diff` unset. -/
theorem c9_witness :
    (diff_dir_by_list cfgOff "out".toList 1000 [("gone.txt".toList, envNotFound)]).hasDiff
      = false :=
  (c9_all_skipped_only_mkdirs cfgOff "out".toList 1000 [("gone.txt".toList, envNotFound)]
    (by decide)).1

end Coderev
